import Mathlib

/-!
Shallow embedding of the SemanticKITTI statistics pipeline
(`generate_train_statistics.py` / `generate_test_statistics.py`).

Coordinates, calibration entries and timestamps are modelled as exact
rationals (`ℚ`); the scripts use IEEE doubles, but every claim settled here
is about branching, filtering and exact-arithmetic identities, not about
rounding.  Euclidean norms (`np.linalg.norm`) involve a square root, so the
embedding carries squared norms in `ℚ` and relates them to real norms via
`Real.sqrt` in the theorems (min commutes with the monotone square root).
Note that in Lean `q / 0 = 0` on `ℚ`, whereas NumPy produces `nan`/`inf`;
the one claim touching that corner (the `w = 0` perspective divide) is
analysed explicitly with this in mind.
-/

/-- A 3D point (or a row of raw projective output `(u', v', w)`). -/
structure Point3 where
  x : ℚ
  y : ℚ
  z : ℚ
deriving DecidableEq

/-- One row of a 3×4 matrix. -/
structure Row4 where
  a : ℚ
  b : ℚ
  c : ℚ
  d : ℚ
deriving DecidableEq

/-- A 3×4 matrix: the top of the homogeneous `Tr` (its fourth row is fixed
`[0,0,0,1]` by `np.vstack`) or the camera projection `P2`. -/
structure Mat34 where
  r0 : Row4
  r1 : Row4
  r2 : Row4
deriving DecidableEq

/-- Row times homogenized point `(x, y, z, 1)`. -/
def dotH (r : Row4) (p : Point3) : ℚ :=
  r.a * p.x + r.b * p.y + r.c * p.z + r.d

/-- Apply a 3×4 matrix to the homogenized point; for `Tr` this is the
camera-frame point (the fourth homogeneous output coordinate is 1 and is
dropped by the script), for `P2` the raw projective coordinates. -/
def applyM (M : Mat34) (p : Point3) : Point3 :=
  ⟨dotH M.r0 p, dotH M.r1 p, dotH M.r2 p⟩

/-- Core of `project_to_front_view` on co-indexed (point, label) pairs:
z-filter in camera frame, perspective projection and divide, image-bounds
filter.  Output tuples are (original 3D point, (u, v), label). -/
def projectCore (prs : List (Point3 × ℕ)) (Tr P2 : Mat34) :
    List (Point3 × (ℚ × ℚ) × ℕ) :=
  let afterZ := prs.filter fun pr => decide (0 < (applyM Tr pr.1).z)
  let proj := afterZ.map fun pr =>
    let img := applyM P2 (applyM Tr pr.1)
    (pr.1, (img.x / img.z, img.y / img.z), pr.2)
  proj.filter fun t =>
    decide (0 ≤ t.2.1.1 ∧ t.2.1.1 < 1242 ∧ 0 ≤ t.2.1.2 ∧ t.2.1.2 < 375)

/-- `project_to_front_view(points, labels, Tr, P2)`.  NumPy boolean-mask
indexing `labels[mask_z]` raises `IndexError` when `len(labels)` differs
from `len(points)`; fallible behaviour is modelled with `Except`. -/
def project_to_front_view (points : List Point3) (labels : List ℕ)
    (Tr P2 : Mat34) : Except String (List (Point3 × (ℚ × ℚ) × ℕ)) :=
  if points.length = labels.length then
    Except.ok (projectCore (points.zip labels) Tr P2)
  else
    Except.error "boolean index did not match indexed array"

/-- `get_spatial_location(x, y, img_width, img_height)`. -/
def get_spatial_location (x y img_width img_height : ℚ) : String :=
  let x_loc :=
    if x < img_width / 3 then "left"
    else if x < 2 * img_width / 3 then "center"
    else "right"
  let y_loc :=
    if y < img_height / 3 then "top"
    else if y < 2 * img_height / 3 then "middle"
    else "bottom"
  y_loc ++ "-" ++ x_loc

/-- The SemanticKITTI `label_to_name` table. -/
def label_to_name : List (ℕ × String) :=
  [(0, "unlabeled"), (1, "outlier"), (10, "car"), (11, "bicycle"), (13, "bus"),
   (15, "motorcycle"), (16, "on-rails"), (18, "truck"), (20, "other-vehicle"),
   (30, "person"), (31, "bicyclist"), (32, "motorcyclist"), (40, "road"),
   (44, "parking"), (48, "sidewalk"), (49, "other-ground"), (50, "building"),
   (51, "fence"), (52, "vegetation"), (60, "trunk"), (61, "terrain"),
   (70, "pole"), (71, "traffic-sign"), (80, "other-object"),
   (252, "moving-car"), (253, "moving-bicyclist"), (254, "moving-person"),
   (255, "moving-motorcyclist"), (256, "moving-on-rails"), (257, "moving-bus"),
   (258, "moving-truck"), (259, "moving-other-vehicle")]

/-- `np.unique`: the distinct values in ascending order. -/
def sortedUnique (l : List ℕ) : List ℕ :=
  l.dedup.insertionSort (fun a b => a ≤ b)

/-- Lines 130-134 of `generate_train_statistics.py`: per-frame class
percentages keyed by class name; an id absent from the table is keyed
`unknown_<id>`; the denominator floor of 1 mirrors
`len(semantic_labels) if len(semantic_labels) > 0 else 1`. -/
def class_percentages_named (sems : List ℕ) : List (String × ℚ) :=
  let total : ℚ := if 0 < sems.length then (sems.length : ℚ) else 1
  (sortedUnique sems).map fun l =>
    ((label_to_name.lookup l).getD ("unknown_" ++ toString l),
      (sems.count l : ℚ) / total * 100)

/-- One row of a ProjectedFrame after semantic/instance unpacking
(`label & 0xFFFF`, `label >> 16`). -/
structure ProjPoint where
  p3 : Point3
  u : ℚ
  v : ℚ
  sem : ℕ
  inst : ℕ
deriving DecidableEq

/-- Squared Euclidean norm; the script stores `np.linalg.norm` values, i.e.
square roots of these (√ is monotone, so minima correspond). -/
def sqNorm (p : Point3) : ℚ :=
  p.x ^ 2 + p.y ^ 2 + p.z ^ 2

/-- One aggregated instance (lines 156-161); `minDistSq` is the square of
the script's `distance` field. -/
structure Instance where
  className : String
  inst_id : ℕ
  spatialLoc : String
  minDistSq : ℚ
deriving DecidableEq

/-- Lines 139-161: group by instance id (skipping id 0), class from the
group's first point with default `"unknown"`, spatial bucket from the mean
2D position, minimum (squared) distance over the group's 3D points. -/
def instancesOf (pts : List ProjPoint) : List Instance :=
  (sortedUnique (pts.map ProjPoint.inst)).filterMap fun i =>
    if i = 0 then none
    else
      match pts.filter (fun q => q.inst == i) with
      | [] => none
      | g0 :: rest =>
        let group := g0 :: rest
        let className := (label_to_name.lookup g0.sem).getD "unknown"
        let n : ℚ := (group.length : ℚ)
        let mean_u := (group.map ProjPoint.u).sum / n
        let mean_v := (group.map ProjPoint.v).sum / n
        let minSq := (rest.map fun q => sqNorm q.p3).foldl min (sqNorm g0.p3)
        some ⟨className, i, get_spatial_location mean_u mean_v 1242 375, minSq⟩

/-- Lines 221-227: for every class name observed in any frame, the mean of
its per-frame percentage with absent frames contributing 0, divided by the
full frame count (`np.mean` over one entry per frame). -/
def average_class_percentages (cps : List (List (String × ℚ))) :
    List (String × ℚ) :=
  let all_classes := (cps.map fun cp => cp.map Prod.fst).flatten.dedup
  all_classes.map fun cls =>
    (cls, (cps.map fun cp => ((cp.lookup cls).getD 0)).sum / (cps.length : ℚ))

/-- `np.linalg.norm` of the difference of two translation vectors. -/
noncomputable def dist3 (p q : Point3) : ℝ :=
  Real.sqrt (((q.x - p.x : ℚ) : ℝ) ^ 2 + ((q.y - p.y : ℚ) : ℝ) ^ 2 +
    ((q.z - p.z : ℚ) : ℝ) ^ 2)

/-- The running state of the ego-motion loop: previous (translation, time),
previous speed, total distance, and the `speeds` list. -/
structure EgoAcc where
  prev : Option (Point3 × ℚ)
  prevSpeed : ℝ
  totalDistance : ℝ
  speeds : List ℝ

/-- Lines 167-210 for one frame: given the pose translation and timestamp,
produce the updated accumulator together with (speed, acceleration). -/
noncomputable def ego_step (acc : EgoAcc) (trans : Point3) (t : ℚ) :
    EgoAcc × ℝ × ℝ :=
  match acc.prev with
  | none =>
      (⟨some (trans, t), 0, acc.totalDistance, acc.speeds ++ [0]⟩, 0, 0)
  | some (prevT, prevTime) =>
      let displacement := dist3 prevT trans
      let dt : ℚ := t - prevTime
      let speed : ℝ := if 0 < dt then displacement / (dt : ℝ) else 0
      let accel : ℝ :=
        if 0 < dt then (speed - acc.prevSpeed) / (dt : ℝ) else 0
      (⟨some (trans, t), speed, acc.totalDistance + displacement,
        acc.speeds ++ [speed]⟩, speed, accel)

/-- Initial accumulator (lines 111-117). -/
noncomputable def initEgo : EgoAcc :=
  ⟨none, 0, 0, []⟩

/-- The per-sequence ego-motion fold over (translation, timestamp) pairs. -/
noncomputable def run_ego (frames : List (Point3 × ℚ)) : EgoAcc :=
  frames.foldl (fun acc f => (ego_step acc f.1 f.2).1) initEgo

/-- Line 216: `min(speeds) if speeds else 0`. -/
noncomputable def min_speed (speeds : List ℝ) : ℝ :=
  match speeds with
  | [] => 0
  | s :: rest => rest.foldl min s

/-- The projection loop of `process_sequence` over a sequence's frames:
the first failing frame aborts the sequence (the Python exception
propagates out of `process_sequence` before any output file is written). -/
def process_sequence_frames : List (List Point3 × List ℕ) → Mat34 → Mat34 →
    Except String (List (List (Point3 × (ℚ × ℚ) × ℕ)))
  | [], _, _ => Except.ok []
  | fr :: rest, Tr, P2 =>
    match project_to_front_view fr.1 fr.2 Tr P2 with
    | Except.error e => Except.error e
    | Except.ok out =>
      match process_sequence_frames rest Tr P2 with
      | Except.error e => Except.error e
      | Except.ok outs => Except.ok (out :: outs)

/-- Lines 262-280: every sequence is attempted; a raised error is caught
per sequence (`except Exception`) and the batch continues, so each entry of
the result is that sequence's own outcome. -/
def process_all_sequences
    (seqs : List ((List (List Point3 × List ℕ)) × Mat34 × Mat34)) :
    List (Except String (List (List (Point3 × (ℚ × ℚ) × ℕ)))) :=
  seqs.map fun s => process_sequence_frames s.1 s.2.1 s.2.2

/-- Anatomy of `projectCore` membership: every output row comes from an
input pair that passed the z-filter, carries the perspective-divided
coordinates, and passed the image-bounds filter. -/
theorem projectCore_mem {prs : List (Point3 × ℕ)} {Tr P2 : Mat34}
    {t : Point3 × (ℚ × ℚ) × ℕ} (ht : t ∈ projectCore prs Tr P2) :
    ∃ pr ∈ prs, 0 < (applyM Tr pr.1).z ∧
      t = (pr.1, ((applyM P2 (applyM Tr pr.1)).x / (applyM P2 (applyM Tr pr.1)).z,
        (applyM P2 (applyM Tr pr.1)).y / (applyM P2 (applyM Tr pr.1)).z), pr.2) ∧
      0 ≤ t.2.1.1 ∧ t.2.1.1 < 1242 ∧ 0 ≤ t.2.1.2 ∧ t.2.1.2 < 375 := by
  simp only [projectCore, List.mem_filter, List.mem_map, decide_eq_true_eq] at ht
  obtain ⟨⟨pr, hpr, rfl⟩, hbounds⟩ := ht
  exact ⟨pr, hpr.1, hpr.2, rfl, hbounds⟩

/-- Claim C1: no point whose camera-frame z coordinate is ≤ 0 appears in
the output of `project_to_front_view`; only points with camera-frame z > 0
are retained (the z-filter precedes the perspective division in
`projectCore`). -/
theorem C1_front_hemisphere (points : List Point3) (labels : List ℕ)
    (Tr P2 : Mat34) (out : List (Point3 × (ℚ × ℚ) × ℕ))
    (hok : project_to_front_view points labels Tr P2 = Except.ok out) :
    ∀ t ∈ out, 0 < (applyM Tr t.1).z := by
  intro t ht
  rw [project_to_front_view] at hok
  split at hok
  · obtain rfl : projectCore (points.zip labels) Tr P2 = out := by
      injection hok
    obtain ⟨pr, _, hz, rfl, _⟩ := projectCore_mem ht
    exact hz
  · cases hok

/-- Claim C1 witness: a concrete in-front point survives projection and
indeed has positive camera-frame z. -/
theorem C1_witness :
    project_to_front_view [⟨100, 100, 1⟩] [7]
        ⟨⟨1, 0, 0, 0⟩, ⟨0, 1, 0, 0⟩, ⟨0, 0, 1, 0⟩⟩
        ⟨⟨1, 0, 0, 0⟩, ⟨0, 1, 0, 0⟩, ⟨0, 0, 1, 0⟩⟩ =
      Except.ok [(⟨100, 100, 1⟩, (100, 100), 7)] ∧
    0 < (applyM ⟨⟨1, 0, 0, 0⟩, ⟨0, 1, 0, 0⟩, ⟨0, 0, 1, 0⟩⟩
        (⟨100, 100, 1⟩ : Point3)).z := by
  have h1 : project_to_front_view [⟨100, 100, 1⟩] [7]
      ⟨⟨1, 0, 0, 0⟩, ⟨0, 1, 0, 0⟩, ⟨0, 0, 1, 0⟩⟩
      ⟨⟨1, 0, 0, 0⟩, ⟨0, 1, 0, 0⟩, ⟨0, 0, 1, 0⟩⟩ =
      Except.ok [(⟨100, 100, 1⟩, (100, 100), 7)] := by
    norm_num [project_to_front_view, projectCore, applyM, dotH]
  refine ⟨h1, ?_⟩
  exact C1_front_hemisphere [⟨100, 100, 1⟩] [7]
    ⟨⟨1, 0, 0, 0⟩, ⟨0, 1, 0, 0⟩, ⟨0, 0, 1, 0⟩⟩
    ⟨⟨1, 0, 0, 0⟩, ⟨0, 1, 0, 0⟩, ⟨0, 0, 1, 0⟩⟩
    [(⟨100, 100, 1⟩, (100, 100), 7)] h1
    (⟨100, 100, 1⟩, (100, 100), 7) (List.mem_singleton.mpr rfl)

/-- Claim C2: every 2D point (u, v) in the projected output satisfies
0 ≤ u < 1242 and 0 ≤ v < 375; out-of-bounds points are excluded from all
co-indexed output arrays. -/
theorem C2_image_bounds (points : List Point3) (labels : List ℕ)
    (Tr P2 : Mat34) (out : List (Point3 × (ℚ × ℚ) × ℕ))
    (hok : project_to_front_view points labels Tr P2 = Except.ok out) :
    ∀ t ∈ out, 0 ≤ t.2.1.1 ∧ t.2.1.1 < 1242 ∧ 0 ≤ t.2.1.2 ∧ t.2.1.2 < 375 := by
  intro t ht
  rw [project_to_front_view] at hok
  split at hok
  · obtain rfl : projectCore (points.zip labels) Tr P2 = out := by
      injection hok
    obtain ⟨pr, _, _, _, hb⟩ := projectCore_mem ht
    exact hb
  · cases hok

/-- Claim C2 witness: the surviving concrete point's 2D coordinates are in
bounds. -/
theorem C2_witness :
    project_to_front_view [⟨200, 50, 1⟩] [9]
        ⟨⟨1, 0, 0, 0⟩, ⟨0, 1, 0, 0⟩, ⟨0, 0, 1, 0⟩⟩
        ⟨⟨1, 0, 0, 0⟩, ⟨0, 1, 0, 0⟩, ⟨0, 0, 1, 0⟩⟩ =
      Except.ok [(⟨200, 50, 1⟩, (200, 50), 9)] ∧
    (0 ≤ (200 : ℚ) ∧ (200 : ℚ) < 1242 ∧ 0 ≤ (50 : ℚ) ∧ (50 : ℚ) < 375) := by
  have h1 : project_to_front_view [⟨200, 50, 1⟩] [9]
      ⟨⟨1, 0, 0, 0⟩, ⟨0, 1, 0, 0⟩, ⟨0, 0, 1, 0⟩⟩
      ⟨⟨1, 0, 0, 0⟩, ⟨0, 1, 0, 0⟩, ⟨0, 0, 1, 0⟩⟩ =
      Except.ok [(⟨200, 50, 1⟩, (200, 50), 9)] := by
    norm_num [project_to_front_view, projectCore, applyM, dotH]
  refine ⟨h1, ?_⟩
  exact C2_image_bounds [⟨200, 50, 1⟩] [9]
    ⟨⟨1, 0, 0, 0⟩, ⟨0, 1, 0, 0⟩, ⟨0, 0, 1, 0⟩⟩
    ⟨⟨1, 0, 0, 0⟩, ⟨0, 1, 0, 0⟩, ⟨0, 0, 1, 0⟩⟩
    [(⟨200, 50, 1⟩, (200, 50), 9)] h1
    (⟨200, 50, 1⟩, (200, 50), 9) (List.mem_singleton.mpr rfl)

/-- Claim C9 counterexample: with a degenerate camera projection matrix a
point passing the front-hemisphere filter has raw projective w exactly 0,
and no guard drops it — under the embedding's exact arithmetic (division
by zero yields 0) the point is even retained in the output.  The code
divides unconditionally at `points_img[:, :2] / points_img[:, 2:]`; there
is no defensive w = 0 check anywhere in `project_to_front_view`. -/
theorem C9_counterexample :
    0 < (applyM ⟨⟨1, 0, 0, 0⟩, ⟨0, 1, 0, 0⟩, ⟨0, 0, 1, 0⟩⟩
        (⟨0, 0, 1⟩ : Point3)).z ∧
    (applyM ⟨⟨0, 0, 0, 0⟩, ⟨0, 0, 0, 0⟩, ⟨0, 0, 0, 0⟩⟩
        (applyM ⟨⟨1, 0, 0, 0⟩, ⟨0, 1, 0, 0⟩, ⟨0, 0, 1, 0⟩⟩
          (⟨0, 0, 1⟩ : Point3))).z = 0 ∧
    ((⟨0, 0, 1⟩ : Point3), ((0 : ℚ), (0 : ℚ)), 3) ∈
      projectCore [(⟨0, 0, 1⟩, 3)] ⟨⟨1, 0, 0, 0⟩, ⟨0, 1, 0, 0⟩, ⟨0, 0, 1, 0⟩⟩
        ⟨⟨0, 0, 0, 0⟩, ⟨0, 0, 0, 0⟩, ⟨0, 0, 0, 0⟩⟩ := by
  refine ⟨by norm_num [applyM, dotH], by norm_num [applyM, dotH], ?_⟩
  norm_num [projectCore, applyM, dotH]

/-- Claim C9 (amended): for a camera projection matrix of the KITTI form —
third row (0, 0, 1, t) with t ≥ 0 — the raw projective w of any point with
positive camera-frame z is positive, so the unguarded perspective division
never divides by zero; for degenerate matrices w = 0 can occur and the
code has no defensive guard (see the counterexample). -/
theorem C9_w_positive_kitti (P2 : Mat34) (t : ℚ) (hrow : P2.r2 = ⟨0, 0, 1, t⟩)
    (ht : 0 ≤ t) (cam : Point3) (hz : 0 < cam.z) :
    0 < (applyM P2 cam).z := by
  simp only [applyM, dotH, hrow]
  norm_num
  linarith

/-- Claim C9 witness: a concrete KITTI-form matrix and in-front camera
point give positive w. -/
theorem C9_witness :
    0 < (applyM ⟨⟨1, 0, 0, 0⟩, ⟨0, 1, 0, 0⟩, ⟨0, 0, 1, 0⟩⟩
        (⟨5, 5, 2⟩ : Point3)).z :=
  C9_w_positive_kitti ⟨⟨1, 0, 0, 0⟩, ⟨0, 1, 0, 0⟩, ⟨0, 0, 1, 0⟩⟩ 0 rfl le_rfl
    ⟨5, 5, 2⟩ (by norm_num)

/-- Claim C5 counterexample: a point with semantic id 999 (absent from the
table) is keyed `unknown_999` in the class-percentage map, but the
Instance derived from it is labeled plain `"unknown"` — line 146 uses
`label_to_name.get(inst_semantic, "unknown")`, without the id — so the
claim that the instance label is also `unknown_<id>` is false. -/
theorem C5_counterexample :
    (class_percentages_named [999]).map Prod.fst = ["unknown_999"] ∧
    (instancesOf [⟨⟨1, 0, 0⟩, 5, 5, 999, 1⟩]).map Instance.className =
      ["unknown"] ∧
    "unknown" ≠ "unknown_999" := by
  refine ⟨?_, ?_, by decide⟩
  · simp [class_percentages_named, sortedUnique]
    rfl
  · simp [instancesOf, sortedUnique, List.filterMap_cons, List.filter]
    rfl

/-- Claim C5 (amended): an unknown semantic id is keyed `unknown_<id>` in
the frame's class-percentage map (never dropped); an Instance whose points
all carry unknown semantic ids gets the constant class label `"unknown"`
(without the id). -/
theorem C5_unknown_labels (s : ℕ) (sems : List ℕ)
    (hs : s ∈ sems) (hn : label_to_name.lookup s = none) :
    ("unknown_" ++ toString s) ∈ (class_percentages_named sems).map Prod.fst ∧
    ∀ pts : List ProjPoint, ∀ ins ∈ instancesOf pts,
      (∀ q ∈ pts, label_to_name.lookup q.sem = none) →
        ins.className = "unknown" := by
  constructor
  · have h1 : s ∈ sortedUnique sems :=
      (List.perm_insertionSort (fun a b => a ≤ b) sems.dedup).mem_iff.mpr
        (List.mem_dedup.mpr hs)
    simp only [class_percentages_named, List.map_map, List.mem_map,
      Function.comp]
    exact ⟨s, h1, by simp [hn]⟩
  · intro pts ins hins hall
    simp only [instancesOf, List.mem_filterMap] at hins
    obtain ⟨i, hi, hfi⟩ := hins
    by_cases h0 : i = 0
    · rw [if_pos h0] at hfi
      cases hfi
    · rw [if_neg h0] at hfi
      split at hfi
      · cases hfi
      · rename_i g0 rest heq
        have hg0 : g0 ∈ pts := by
          have hmem : g0 ∈ pts.filter (fun q => q.inst == i) := by
            rw [heq]
            exact List.mem_cons_self _ _
          exact (List.mem_filter.mp hmem).1
        have hsem := hall g0 hg0
        obtain rfl := Option.some.inj hfi
        simp [hsem]

/-- Claim C5 witness: the amended statement at the concrete id 999. -/
theorem C5_witness :
    ("unknown_" ++ toString 999) ∈
      (class_percentages_named [999]).map Prod.fst :=
  (C5_unknown_labels 999 [999] (List.mem_singleton.mpr rfl) (by rfl)).1

/-- Claim C7: for a nonempty frame the class-percentage values sum to
exactly 100 (each percentage is 100·count/total over the same total); for
a frame with zero points the class-percentage map is empty. -/
theorem C7_percentages_sum (sems : List ℕ) :
    (sems ≠ [] → ((class_percentages_named sems).map Prod.snd).sum = 100) ∧
    (sems = [] → class_percentages_named sems = []) := by
  constructor
  · intro hne
    have hlen : 0 < sems.length := List.length_pos.mpr hne
    have hn0 : ((sems.length : ℚ)) ≠ 0 := by
      exact_mod_cast Nat.pos_iff_ne_zero.mp hlen
    simp only [class_percentages_named, if_pos hlen, List.map_map]
    have hfun : (Prod.snd ∘ fun l =>
        ((label_to_name.lookup l).getD ("unknown_" ++ toString l),
          (sems.count l : ℚ) / (sems.length : ℚ) * 100)) =
        fun l => ((sems.count l : ℚ)) * (100 / (sems.length : ℚ)) := by
      funext l
      simp [Function.comp, div_mul_eq_mul_div, mul_div_assoc]
    rw [hfun, List.sum_map_mul_right]
    have hperm : ((sortedUnique sems).map fun l => ((sems.count l : ℚ))).sum =
        (sems.dedup.map fun l => ((sems.count l : ℚ))).sum :=
      ((List.perm_insertionSort (fun a b => a ≤ b) sems.dedup).map _).sum_eq
    rw [hperm]
    have hcast : (sems.dedup.map fun l => ((sems.count l : ℚ))).sum =
        ((sems.dedup.map fun l => sems.count l).sum : ℕ) := by
      rw [Nat.cast_list_sum, List.map_map]
      rfl
    rw [hcast, List.sum_map_count_dedup_eq_length]
    field_simp
  · intro h
    subst h
    rfl

/-- Claim C7 witness: a concrete 3-point frame with two classes sums to
exactly 100. -/
theorem C7_witness :
    ((class_percentages_named [10, 10, 40]).map Prod.snd).sum = 100 :=
  (C7_percentages_sum [10, 10, 40]).1 (by decide)

/-- Claim C4: `average_class_percentages` takes, for each class name
observed anywhere in the sequence, the sum of that class's per-frame
percentages — frames where the class is absent contributing 0 — divided by
the full frame count; on the synthetic 3-frame sequence with car
percentages 10%, absent, 20% the average is exactly 10. -/
theorem C4_average_class_percentages :
    (∀ (cps : List (List (String × ℚ))) (cls : String) (v : ℚ),
      (cls, v) ∈ average_class_percentages cps →
        v = ((cps.map fun cp => ((cp.lookup cls).getD 0)).sum) /
          (cps.length : ℚ)) ∧
    average_class_percentages [[("car", 10)], [], [("car", 20)]] =
      [("car", 10)] := by
  constructor
  · intro cps cls v hmem
    simp only [average_class_percentages, List.mem_map] at hmem
    obtain ⟨a, _, heq⟩ := hmem
    obtain ⟨rfl, rfl⟩ := Prod.mk.injEq .. ▸ heq
    rfl
  · norm_num [average_class_percentages]

/-- Claim C4 witness: the general statement applied at the synthetic
3-frame sequence. -/
theorem C4_witness :
    (10 : ℚ) = (([[("car", 10)], [], [("car", 20)]].map
        fun cp => ((cp.lookup "car").getD 0)).sum) /
      (([[("car", 10)], [], [("car", 20)]] :
        List (List (String × ℚ))).length : ℚ) :=
  C4_average_class_percentages.1 [[("car", 10)], [], [("car", 20)]] "car" 10
    (by norm_num [average_class_percentages])

/-- Claim C3: a frame of three points all carrying instance id 5 and
semantic class 10 yields exactly one Instance, whose class is the name of
class 10 ("car") and whose minimum distance is the smallest of the three
Euclidean norms (stated via squared norms: √ of the minimum squared norm
is the minimum of the three norms, since √ is monotone); and in general
instance id 0 never produces an Instance. -/
theorem C3_instance_aggregation (p1 p2 p3 : Point3) (u1 v1 u2 v2 u3 v3 : ℚ) :
    (∃ sl : String,
      instancesOf [⟨p1, u1, v1, 10, 5⟩, ⟨p2, u2, v2, 10, 5⟩,
          ⟨p3, u3, v3, 10, 5⟩] =
        [⟨"car", 5, sl, min (min (sqNorm p1) (sqNorm p2)) (sqNorm p3)⟩]) ∧
    Real.sqrt ((min (min (sqNorm p1) (sqNorm p2)) (sqNorm p3) : ℚ) : ℝ) =
      min (min (Real.sqrt ((sqNorm p1 : ℚ) : ℝ))
          (Real.sqrt ((sqNorm p2 : ℚ) : ℝ)))
        (Real.sqrt ((sqNorm p3 : ℚ) : ℝ)) ∧
    ∀ (pts : List ProjPoint), ∀ ins ∈ instancesOf pts, ins.inst_id ≠ 0 := by
  refine ⟨⟨get_spatial_location ((u1 + (u2 + u3)) / 3) ((v1 + (v2 + v3)) / 3)
      1242 375, ?_⟩, ?_, ?_⟩
  · simp [instancesOf, sortedUnique, List.filterMap_cons, List.filter]
    norm_num [min_assoc]
    rfl
  · have hmono : Monotone Real.sqrt := fun x y h => Real.sqrt_le_sqrt h
    rw [Rat.cast_min, Rat.cast_min, hmono.map_min, hmono.map_min]
  · intro pts ins hins
    simp only [instancesOf, List.mem_filterMap] at hins
    obtain ⟨i, hi, hfi⟩ := hins
    by_cases h0 : i = 0
    · rw [if_pos h0] at hfi
      cases hfi
    · rw [if_neg h0] at hfi
      split at hfi
      · cases hfi
      · obtain rfl := Option.some.inj hfi
        simpa using h0

/-- Claim C3 witness: at a concrete one-instance frame the produced
Instance is a member of the aggregation output and — by the theorem's
general conjunct — its instance id is nonzero. -/
theorem C3_witness :
    (⟨"car", 5, "top-left", 25⟩ : Instance) ∈
      instancesOf [⟨⟨3, 4, 0⟩, 0, 0, 10, 5⟩] ∧
    (⟨"car", 5, "top-left", 25⟩ : Instance).inst_id ≠ 0 := by
  have hmem : (⟨"car", 5, "top-left", 25⟩ : Instance) ∈
      instancesOf [⟨⟨3, 4, 0⟩, 0, 0, 10, 5⟩] := by
    have heq : instancesOf [⟨⟨3, 4, 0⟩, 0, 0, 10, 5⟩] =
        [⟨"car", 5, "top-left", 25⟩] := by
      simp [instancesOf, sortedUnique, List.filterMap_cons, List.filter]
      norm_num [get_spatial_location, sqNorm]
      exact ⟨rfl, rfl⟩
    rw [heq]
    exact List.mem_singleton.mpr rfl
  exact ⟨hmem,
    (C3_instance_aggregation ⟨3, 4, 0⟩ ⟨3, 4, 0⟩ ⟨3, 4, 0⟩ 0 0 0 0 0 0).2.2
      [⟨⟨3, 4, 0⟩, 0, 0, 10, 5⟩] ⟨"car", 5, "top-left", 25⟩ hmem⟩

/-- Claim C6: with a predecessor, speed and acceleration are the guarded
finite differences — displacement/dt and (speed − prevSpeed)/dt when
dt > 0, both 0 when dt ≤ 0 (no division by zero or by a negative dt); on
the first frame (no predecessor) speed = acceleration = 0 and the running
total distance is unchanged. -/
theorem C6_ego_motion :
    (∀ (acc : EgoAcc) (trans : Point3) (t : ℚ), acc.prev = none →
      (ego_step acc trans t).2.1 = 0 ∧ (ego_step acc trans t).2.2 = 0 ∧
      (ego_step acc trans t).1.totalDistance = acc.totalDistance) ∧
    (∀ (acc : EgoAcc) (pT : Point3) (pt : ℚ) (trans : Point3) (t : ℚ),
      acc.prev = some (pT, pt) →
      (0 < t - pt →
        (ego_step acc trans t).2.1 = dist3 pT trans / ((t - pt : ℚ) : ℝ) ∧
        (ego_step acc trans t).2.2 =
          ((ego_step acc trans t).2.1 - acc.prevSpeed) / ((t - pt : ℚ) : ℝ)) ∧
      (t - pt ≤ 0 →
        (ego_step acc trans t).2.1 = 0 ∧ (ego_step acc trans t).2.2 = 0)) := by
  constructor
  · intro acc trans t h
    obtain ⟨prev, ps, td, sp⟩ := acc
    cases h
    exact ⟨rfl, rfl, rfl⟩
  · intro acc pT pt trans t h
    obtain ⟨prev, ps, td, sp⟩ := acc
    cases h
    constructor
    · intro hdt
      constructor
      · show (if 0 < t - pt then dist3 pT trans / ((t - pt : ℚ) : ℝ) else 0) =
          dist3 pT trans / ((t - pt : ℚ) : ℝ)
        rw [if_pos hdt]
      · show (if 0 < t - pt then
            ((if 0 < t - pt then dist3 pT trans / ((t - pt : ℚ) : ℝ) else 0) -
              ps) / ((t - pt : ℚ) : ℝ)
          else 0) =
          ((ego_step ⟨some (pT, pt), ps, td, sp⟩ trans t).2.1 - ps) /
            ((t - pt : ℚ) : ℝ)
        rw [if_pos hdt]
        rfl
    · intro hdt
      have hneg : ¬ (0 < t - pt) := not_lt.mpr hdt
      constructor
      · show (if 0 < t - pt then dist3 pT trans / ((t - pt : ℚ) : ℝ) else 0) =
          (0 : ℝ)
        rw [if_neg hneg]
      · show (if 0 < t - pt then
            ((if 0 < t - pt then dist3 pT trans / ((t - pt : ℚ) : ℝ) else 0) -
              ps) / ((t - pt : ℚ) : ℝ)
          else 0) = (0 : ℝ)
        rw [if_neg hneg]

/-- Claim C6 witness: consecutive translations (0,0,0) → (1,0,0) over
dt = 1 give speed 1 and acceleration 1; a first frame gives speed 0. -/
theorem C6_witness :
    (ego_step ⟨some (⟨0, 0, 0⟩, 0), 0, 0, [0]⟩ ⟨1, 0, 0⟩ 1).2.1 = 1 ∧
    (ego_step ⟨some (⟨0, 0, 0⟩, 0), 0, 0, [0]⟩ ⟨1, 0, 0⟩ 1).2.2 = 1 ∧
    (ego_step ⟨none, 0, 0, []⟩ ⟨1, 0, 0⟩ 1).2.1 = 0 := by
  obtain ⟨h1, h2⟩ := C6_ego_motion
  have hsome := h2 ⟨some (⟨0, 0, 0⟩, 0), 0, 0, [0]⟩ ⟨0, 0, 0⟩ 0 ⟨1, 0, 0⟩ 1 rfl
  have hdt : (0 : ℚ) < 1 - 0 := by norm_num
  obtain ⟨hs, ha⟩ := hsome.1 hdt
  have hdist : dist3 (⟨0, 0, 0⟩ : Point3) ⟨1, 0, 0⟩ = 1 := by
    simp [dist3]
  refine ⟨?_, ?_, (h1 ⟨none, 0, 0, []⟩ ⟨1, 0, 0⟩ 1 rfl).1⟩
  · rw [hs, hdist]
    norm_num
  · rw [ha, hs, hdist]
    norm_num

/-- Each ego step appends exactly one speed, and that speed is
non-negative (a norm divided by a positive dt, or the guarded 0). -/
theorem ego_step_appends_nonneg (acc : EgoAcc) (trans : Point3) (t : ℚ) :
    ∃ s : ℝ, (ego_step acc trans t).1.speeds = acc.speeds ++ [s] ∧ 0 ≤ s := by
  obtain ⟨prev, ps, td, sp⟩ := acc
  cases prev with
  | none => exact ⟨0, rfl, le_refl 0⟩
  | some pr =>
    obtain ⟨pT, pt⟩ := pr
    refine ⟨_, rfl, ?_⟩
    by_cases h : 0 < t - pt
    · rw [if_pos h]
      refine div_nonneg ?_ (by exact_mod_cast h.le)
      simp only [dist3]
      exact Real.sqrt_nonneg _
    · rw [if_neg h]

/-- Folding the ego step only ever appends non-negative speeds. -/
theorem run_ego_speeds_aux (frames : List (Point3 × ℚ)) (acc : EgoAcc) :
    ∃ l : List ℝ,
      (frames.foldl (fun a f => (ego_step a f.1 f.2).1) acc).speeds =
        acc.speeds ++ l ∧ ∀ x ∈ l, 0 ≤ x := by
  induction frames generalizing acc with
  | nil => exact ⟨[], by simp, by simp⟩
  | cons f fs ih =>
    obtain ⟨s, hs, hsn⟩ := ego_step_appends_nonneg acc f.1 f.2
    obtain ⟨l, hl, hln⟩ := ih ((ego_step acc f.1 f.2).1)
    refine ⟨s :: l, ?_, ?_⟩
    · rw [List.foldl_cons, hl, hs, List.append_assoc]
      rfl
    · intro x hx
      rcases List.mem_cons.mp hx with h | h
      · exact h ▸ hsn
      · exact hln x h

/-- A left fold of `min` from 0 over non-negative reals stays 0. -/
theorem foldl_min_zero (l : List ℝ) (h : ∀ x ∈ l, 0 ≤ x) :
    l.foldl min (0 : ℝ) = 0 := by
  induction l with
  | nil => rfl
  | cons x xs ih =>
    rw [List.foldl_cons, min_eq_left (h x (List.mem_cons_self x xs))]
    exact ih fun y hy => h y (List.mem_cons_of_mem x hy)

/-- Claim C10: for any nonempty sequence the summary's min speed is
exactly 0 — the first frame contributes speed 0 and every later speed is
non-negative. -/
theorem C10_min_speed (frames : List (Point3 × ℚ)) (h : frames ≠ []) :
    min_speed (run_ego frames).speeds = 0 := by
  obtain ⟨f, fs, rfl⟩ := List.exists_cons_of_ne_nil h
  rw [run_ego, List.foldl_cons]
  obtain ⟨l, hl, hln⟩ := run_ego_speeds_aux fs ((ego_step initEgo f.1 f.2).1)
  have hfirst : (ego_step initEgo f.1 f.2).1.speeds = [0] := rfl
  rw [hl, hfirst]
  show min_speed (0 :: l) = 0
  calc min_speed (0 :: l) = l.foldl min 0 := rfl
    _ = 0 := foldl_min_zero l hln

/-- Claim C10 witness: the one-frame sequence has min speed 0. -/
theorem C10_witness :
    min_speed (run_ego [(⟨0, 0, 0⟩, 0)]).speeds = 0 :=
  C10_min_speed [(⟨0, 0, 0⟩, 0)] (by simp)

/-- A sequence containing a frame whose points and labels differ in length
never yields an ok result: the projection raises on that frame and the
per-sequence processing aborts before producing output. -/
theorem process_sequence_frames_error (frames : List (List Point3 × List ℕ))
    (Tr P2 : Mat34) (hbad : ∃ fr ∈ frames, fr.1.length ≠ fr.2.length) :
    ∀ v, process_sequence_frames frames Tr P2 ≠ Except.ok v := by
  induction frames with
  | nil => simp at hbad
  | cons fr rest ih =>
    intro v hok
    rcases hbad with ⟨fr', hfr', hne⟩
    rcases List.mem_cons.mp hfr' with rfl | hmem
    · rw [process_sequence_frames, project_to_front_view, if_neg hne] at hok
      cases hok
    · rw [process_sequence_frames] at hok
      cases hproj : project_to_front_view fr.1 fr.2 Tr P2 with
      | error e =>
        rw [hproj] at hok
        cases hok
      | ok out =>
        rw [hproj] at hok
        cases hrest : process_sequence_frames rest Tr P2 with
        | error e =>
          rw [hrest] at hok
          cases hok
        | ok outs => exact ih ⟨fr', hmem, hne⟩ outs hrest

/-- Claim C8: a frame-level points/labels length mismatch makes that
sequence fail (no ok output), the batch still attempts every sequence, and
each sequence's outcome is its own, independent of the failing one. -/
theorem C8_sequence_isolation
    (seqs : List ((List (List Point3 × List ℕ)) × Mat34 × Mat34))
    (i : ℕ) (hi : i < seqs.length)
    (hbad : ∃ fr ∈ (seqs.get ⟨i, hi⟩).1, fr.1.length ≠ fr.2.length) :
    (∀ v, (process_all_sequences seqs).get
        ⟨i, by simpa [process_all_sequences] using hi⟩ ≠ Except.ok v) ∧
    (process_all_sequences seqs).length = seqs.length ∧
    ∀ (j : ℕ) (hj : j < seqs.length),
      (process_all_sequences seqs).get
          ⟨j, by simpa [process_all_sequences] using hj⟩ =
        process_sequence_frames (seqs.get ⟨j, hj⟩).1 (seqs.get ⟨j, hj⟩).2.1
          (seqs.get ⟨j, hj⟩).2.2 := by
  refine ⟨?_, by simp [process_all_sequences], ?_⟩
  · intro v
    have hg : (process_all_sequences seqs).get
        ⟨i, by simpa [process_all_sequences] using hi⟩ =
        process_sequence_frames (seqs.get ⟨i, hi⟩).1 (seqs.get ⟨i, hi⟩).2.1
          (seqs.get ⟨i, hi⟩).2.2 := by
      simp [process_all_sequences]
    rw [hg]
    exact process_sequence_frames_error _ _ _ hbad v
  · intro j hj
    simp [process_all_sequences]

/-- Claim C8 witness: in a two-sequence batch whose first sequence has a
1-point/0-label frame, the first sequence yields no ok output while the
second is still processed on its own. -/
theorem C8_witness :
    (process_all_sequences
        [([([⟨0, 0, 0⟩], [])], ⟨⟨1, 0, 0, 0⟩, ⟨0, 1, 0, 0⟩, ⟨0, 0, 1, 0⟩⟩,
            ⟨⟨1, 0, 0, 0⟩, ⟨0, 1, 0, 0⟩, ⟨0, 0, 1, 0⟩⟩),
          ([], ⟨⟨1, 0, 0, 0⟩, ⟨0, 1, 0, 0⟩, ⟨0, 0, 1, 0⟩⟩,
            ⟨⟨1, 0, 0, 0⟩, ⟨0, 1, 0, 0⟩, ⟨0, 0, 1, 0⟩⟩)]).get
      ⟨0, by simp [process_all_sequences]⟩ ≠ Except.ok [] :=
  (C8_sequence_isolation
    [([([⟨0, 0, 0⟩], [])], ⟨⟨1, 0, 0, 0⟩, ⟨0, 1, 0, 0⟩, ⟨0, 0, 1, 0⟩⟩,
        ⟨⟨1, 0, 0, 0⟩, ⟨0, 1, 0, 0⟩, ⟨0, 0, 1, 0⟩⟩),
      ([], ⟨⟨1, 0, 0, 0⟩, ⟨0, 1, 0, 0⟩, ⟨0, 0, 1, 0⟩⟩,
        ⟨⟨1, 0, 0, 0⟩, ⟨0, 1, 0, 0⟩, ⟨0, 0, 1, 0⟩⟩)] 0 (by norm_num)
    ⟨([⟨0, 0, 0⟩], []), List.mem_singleton.mpr rfl, by simp⟩).1 []
